import Mathlib

set_option maxRecDepth 8000

/-!
Verification of the telemetry ingestion and animated-rendering pipeline of the
Realtime_PC_STATS firmware (`src/main.cpp`): the CSV line parser, the rolling
sample history buffers, the line accumulator, the bar animation easing, the
display-mode cycle, the frame scheduler and the touch long-press handling.

Floats of the firmware are modelled as exact rationals (`ℚ`) for the parsing and
history components, and as reals (`ℝ`) for the exponential easing, whose claims
are about exact real arithmetic.  Wall-clock `millis()` values are modelled as
natural numbers passed in explicitly.
-/

/-- Numeric value of a decimal digit character. -/
def digitVal (c : Char) : ℚ := ((c.toNat - 48 : Nat) : ℚ)

/-- Consume leading decimal digits, accumulating the integer value; returns the
accumulated value and the unconsumed remainder. -/
def intDigits : List Char → ℚ → ℚ × List Char
  | [], acc => (acc, [])
  | c :: cs, acc => if c.isDigit then intDigits cs (10 * acc + digitVal c) else (acc, c :: cs)

/-- Consume leading decimal digits after the decimal point, each weighted by a
successively smaller power of ten. -/
def fracDigits : List Char → ℚ → ℚ → ℚ
  | [], _, acc => acc
  | c :: cs, scale, acc =>
    if c.isDigit then fracDigits cs (scale / 10) (acc + digitVal c * scale) else acc

/-- Unsigned magnitude of a decimal literal: integer digits, then an optional
fractional part introduced by a dot. -/
def toFloatMag (s : List Char) : ℚ :=
  match intDigits s 0 with
  | (ip, c :: cs) => if c = '.' then ip + fracDigits cs (1 / 10) 0 else ip
  | (ip, []) => ip

/-- Model of Arduino `String::toFloat` (an `atof` wrapper) as used by the
firmware: skip leading spaces, optional sign, integer digits, optional
fractional digits; parsing stops at the first unexpected character and a string
with no leading numeric content parses to `0`.  (The feeder protocol uses plain
decimal literals, so exponent suffixes are not modelled.) -/
def toFloat (s : List Char) : ℚ :=
  match s.dropWhile (fun c => c = ' ') with
  | [] => toFloatMag []
  | c :: cs =>
    if c = '-' then - toFloatMag cs
    else if c = '+' then toFloatMag cs
    else toFloatMag (c :: cs)

/-- Split a record on commas, mirroring the scanning loop of `parseCSVLine`
(`for i = 0..length; at end-or-comma cut the field`): empty fields are kept and
an empty record yields one empty field. -/
def splitFields : List Char → List Char → List (List Char)
  | [], acc => [acc.reverse]
  | c :: cs, acc => if c = ',' then acc.reverse :: splitFields cs [] else splitFields cs (c :: acc)

/-- Value of `vals[j]` after the scanning loop of `parseCSVLine`: the `j`-th
field parsed with `toFloat` when `j < 16` (the size of `vals`) and the field
exists, and the zero initialiser otherwise. -/
def fieldVal (fields : List (List Char)) (j : Nat) : ℚ :=
  if j < 16 then toFloat (fields.getD j []) else 0

/-- The shared `Stats` snapshot (`struct Stats` in `main.cpp`). -/
structure Stats where
  cpu : ℚ
  mem : ℚ
  gpu : ℚ
  diskPct : ℚ
  diskMBps : ℚ
  cpuTempF : ℚ
  gpuTempF : ℚ
  freeC : ℚ
  freeD : ℚ
  indoorTempF : ℚ
  lastUpdateMs : Nat
  deriving DecidableEq, Repr

/-- The startup value of the `Stats` singleton, with its sentinel magnitudes. -/
def initStats : Stats :=
  { cpu := 0, mem := 0, gpu := 0, diskPct := 0, diskMBps := 0,
    cpuTempF := -999, gpuTempF := -999, freeC := -1, freeD := -1,
    indoorTempF := -999, lastUpdateMs := 0 }

/-- `parseCSVLine` of `main.cpp`: split the record on commas, reject it when
fewer than 9 fields were scanned, and otherwise overwrite the `Stats` snapshot
from `vals[0..8]`, defaulting `indoorTempF` to the just-written `cpuTempF` when
no 10th field was scanned, and stamping `lastUpdateMs` with `millis()` (passed
here as `now`). -/
def parseCSVLine (line : List Char) (cur : Stats) (now : Nat) : Bool × Stats :=
  let fields := splitFields line []
  if fields.length < 9 then (false, cur)
  else
    let cpuT := fieldVal fields 5
    (true,
      { cpu := fieldVal fields 0
        mem := fieldVal fields 1
        gpu := fieldVal fields 2
        diskPct := fieldVal fields 3
        diskMBps := fieldVal fields 4
        cpuTempF := cpuT
        gpuTempF := fieldVal fields 6
        freeC := fieldVal fields 7
        freeD := fieldVal fields 8
        indoorTempF := if 10 ≤ fields.length then fieldVal fields 9 else cpuT
        lastUpdateMs := now })

/-- Number of samples kept per sparkline history buffer (`HIST_N`). -/
def HIST_N : Nat := 60

/-- The three sparkline history buffers (`histCPU`, `histGPU`, `histDISK`) with
their shared write cursor `histIdx`. -/
structure HistSet where
  histCPU : List ℚ
  histGPU : List ℚ
  histDISK : List ℚ
  histIdx : Nat
  deriving DecidableEq, Repr

/-- Startup value of the history buffers: zero-filled arrays, cursor `0`. -/
def initHist : HistSet :=
  { histCPU := List.replicate HIST_N 0
    histGPU := List.replicate HIST_N 0
    histDISK := List.replicate HIST_N 0
    histIdx := 0 }

/-- History update performed in `loop()` for each accepted record: write the
freshly parsed cpu/gpu/disk values at the shared cursor, then advance the
cursor modulo `HIST_N`. -/
def recordStats (h : HistSet) (s : Stats) : HistSet :=
  { histCPU := h.histCPU.set h.histIdx s.cpu
    histGPU := h.histGPU.set h.histIdx s.gpu
    histDISK := h.histDISK.set h.histIdx s.diskPct
    histIdx := (h.histIdx + 1) % HIST_N }

/-- Reading order used by `drawSparkline`: sample `i` of the displayed sequence
is `hist[(histIdx + i) % HIST_N]`, for `i = 0 .. HIST_N - 1`. -/
def histSequence (hist : List ℚ) (histIdx : Nat) : List ℚ :=
  (List.range HIST_N).map (fun i => hist.getD ((histIdx + i) % HIST_N) 0)

/-- The sample values 1, 2, ..., 60 of the history test scenario. -/
def oneToSixty : List ℚ := [1, 2, 3, 4, 5, 6, 7, 8, 9, 10, 11, 12, 13, 14, 15, 16, 17, 18, 19, 20, 21, 22, 23, 24, 25, 26, 27, 28, 29, 30, 31, 32, 33, 34, 35, 36, 37, 38, 39, 40, 41, 42, 43, 44, 45, 46, 47, 48, 49, 50, 51, 52, 53, 54, 55, 56, 57, 58, 59, 60]

/-- The sample values 2, 3, ..., 61: the expected sequence after the oldest
sample is dropped. -/
def twoToSixtyOne : List ℚ := [2, 3, 4, 5, 6, 7, 8, 9, 10, 11, 12, 13, 14, 15, 16, 17, 18, 19, 20, 21, 22, 23, 24, 25, 26, 27, 28, 29, 30, 31, 32, 33, 34, 35, 36, 37, 38, 39, 40, 41, 42, 43, 44, 45, 46, 47, 48, 49, 50, 51, 52, 53, 54, 55, 56, 57, 58, 59, 60, 61]

/-- A `Stats` snapshot whose three history-fed metrics all carry value `v`,
used to drive the sample-history test scenario. -/
def statWith (v : ℚ) : Stats :=
  { initStats with cpu := v, gpu := v, diskPct := v }

/-- Fold a list of accepted snapshots into the history buffers. -/
def recordAll (h : HistSet) (l : List Stats) : HistSet :=
  l.foldl recordStats h

/-- One byte of the serial line accumulator in `loop()`: `\n` hands the buffer
over as a complete record and clears it, `\r` is dropped, any other byte is
appended and the buffer is then trimmed from the front to its most recent 200
characters (`serialBuf.remove(0, len - 200)` when `len > 200`). -/
def accumByte (buf : List Char) (c : Char) : List Char × Option (List Char) :=
  if c = '\n' then ([], some buf)
  else if c = '\r' then (buf, none)
  else
    let b := buf ++ [c]
    if 200 < b.length then (b.drop (b.length - 200), none) else (b, none)

/-- Feed a byte sequence through the accumulator, collecting the records that
were handed to the parser in order. -/
def accumFeed (buf : List Char) : List Char → List Char × List (List Char)
  | [] => (buf, [])
  | c :: cs =>
    let step := accumByte buf c
    let rest := accumFeed step.1 cs
    (rest.1, step.2.toList ++ rest.2)

/-- The most recent `n`-character suffix of a list (all of it when shorter). -/
def takeLast (n : Nat) (l : List Char) : List Char :=
  l.drop (l.length - n)

/-- The display modes (`enum Mode`), in declaration order. -/
inductive Mode where
  | CPU
  | GPU
  | DISK
  | WEATHER
  deriving DecidableEq, Repr

/-- Underlying integer of a mode, as used by the enum casts. -/
def Mode.toIdx : Mode → Nat
  | .CPU => 0
  | .GPU => 1
  | .DISK => 2
  | .WEATHER => 3

/-- The mode whose underlying integer is `n % 4`, inverting the enum cast. -/
def Mode.ofIdx (n : Nat) : Mode :=
  match n % 4 with
  | 0 => .CPU
  | 1 => .GPU
  | 2 => .DISK
  | _ => .WEATHER

/-- `nextMode`: `gMode = (Mode)((gMode + 1) % 4)`. -/
def nextMode (m : Mode) : Mode := Mode.ofIdx (m.toIdx + 1)

/-- `prevMode`: `gMode = (Mode)((gMode + 3) % 4)`. -/
def prevMode (m : Mode) : Mode := Mode.ofIdx (m.toIdx + 3)

/-- The bar animation state: the displayed value `barValue` and the target
`barTarget`, over exact reals. -/
@[ext]
structure BarState where
  value : ℝ
  target : ℝ

/-- `animateBar` of `main.cpp`, with the elapsed seconds `dt` passed in: clamp
`dt` into `[0, 0.05]`, then move the displayed value toward the target by the
fraction `1 - exp (-7 * dt)` of the remaining gap (`speed = 7.0`). -/
noncomputable def animateBar (st : BarState) (dt : ℝ) : BarState :=
  let d := min (max dt 0) (1 / 20)
  { st with value := st.value + (st.target - st.value) * (1 - Real.exp (-(7 * d))) }

/-- The clamping tail of `setBarTargetFromMode`: store the requested target,
clamped below by `0` and above by `100`. -/
noncomputable def setBarTarget (st : BarState) (v : ℝ) : BarState :=
  let t0 := if v < 0 then 0 else v
  { st with target := if 100 < t0 then 100 else t0 }

/-- One operation on the bar animation state: either a target update (a swipe
or an accepted record calling `setBarTargetFromMode`) or an `animateBar` tick. -/
inductive BarOp where
  | setT (v : ℝ)
  | adv (dt : ℝ)

/-- Apply one bar operation. -/
noncomputable def applyBarOp (st : BarState) : BarOp → BarState
  | .setT v => setBarTarget st v
  | .adv dt => animateBar st dt

/-- Run a sequence of bar operations in order. -/
noncomputable def runBarOps (st : BarState) : List BarOp → BarState
  | [] => st
  | op :: rest => runBarOps (applyBarOp st op) rest

/-- Run a sequence of `animateBar` ticks with the given per-call deltas. -/
noncomputable def runAdvances (st : BarState) : List ℝ → BarState
  | [] => st
  | dt :: rest => runAdvances (animateBar st dt) rest

/-- One pass of the ~30 FPS pacing block in `loop()`, at wall-clock `now`:
when `now` has reached the `nextFrame` deadline the frame fires (advance +
render) and the deadline becomes `now + 33`; otherwise nothing happens.
The returned Boolean records whether the frame fired. -/
def frameTick (nextFrame : Nat) (now : Nat) : Nat × Bool :=
  if nextFrame ≤ now then (now + 33, true) else (nextFrame, false)

/-- Run the frame scheduler over a sequence of loop-iteration timestamps,
collecting the timestamps at which a frame actually fired. -/
def runFrames (nextFrame : Nat) : List Nat → Nat × List Nat
  | [] => (nextFrame, [])
  | now :: rest =>
    let t := frameTick nextFrame now
    let r := runFrames t.1 rest
    (r.1, if t.2 then now :: r.2 else r.2)

/-- Threshold for a horizontal swipe, in pixels (`SWIPE_THRESHOLD`). -/
def SWIPE_THRESHOLD : Int := 50

/-- Long-press duration threshold in milliseconds (`LONG_PRESS_MS`). -/
def LONG_PRESS_MS : Nat := 3000

/-- The touch-gesture tracking state of `main.cpp`: the globals used by
`handleTouch`, together with the display mode it navigates and a flag
recording that `enterSetupMode()` was invoked. -/
structure TouchState where
  touchStartTime : Nat
  touchStartX : Int
  touchActive : Bool
  longPressTriggered : Bool
  mode : Mode
  setupEntered : Bool
  deriving DecidableEq, Repr

/-- The touch detail seen by one `handleTouch` call: a finger currently pressed
at `x` with the clock reading `now`, a release at `x`, or no touch activity. -/
inductive TouchEvent where
  | press (now : Nat) (x : Int)
  | release (x : Int)
  | idle

/-- `handleTouch` of `main.cpp` for one observed touch detail.  While pressed:
the first sample arms the gesture (records start time and x); once the hold
exceeds `LONG_PRESS_MS` the long press fires exactly once, entering setup mode.
On release: a horizontal swipe beyond `SWIPE_THRESHOLD` changes mode, but only
when no long press fired during this gesture; then all gesture state resets. -/
def handleTouch (st : TouchState) : TouchEvent → TouchState
  | .press now x =>
    if st.touchStartTime = 0 then
      { st with touchStartTime := now, touchStartX := x, touchActive := true }
    else if st.longPressTriggered = false ∧ LONG_PRESS_MS < now - st.touchStartTime then
      { st with longPressTriggered := true, setupEntered := true }
    else st
  | .release x =>
    let st1 :=
      if st.longPressTriggered = false ∧ st.touchActive = true then
        let deltaX := x - st.touchStartX
        if SWIPE_THRESHOLD < deltaX then { st with mode := prevMode st.mode }
        else if deltaX < -SWIPE_THRESHOLD then { st with mode := nextMode st.mode }
        else st
      else st
    { st1 with touchActive := false, touchStartX := -1, touchStartTime := 0,
               longPressTriggered := false }
  | .idle => st

/-- Process a sequence of touch details in order. -/
def runTouch (st : TouchState) (es : List TouchEvent) : TouchState :=
  es.foldl handleTouch st

/-! ### Parser claims -/

/-- C1: for every input record with at least 9 comma-separated fields,
`parseCSVLine` returns `true` and rewrites the `Stats` snapshot with the nine
metric fields taken from fields 1-9 in order, sets `indoorTempF` to field 10
when at least 10 fields are present and to the cpu-temperature field's value
otherwise, and stamps the update timestamp; in particular the record
`45,60,30,50,12.5,70,80,100,200,68` yields exactly the advertised snapshot. -/
theorem parseCSVLine_valid_updates :
    (∀ line cur now, 9 ≤ (splitFields line []).length →
      parseCSVLine line cur now =
        (true,
          { cpu := fieldVal (splitFields line []) 0
            mem := fieldVal (splitFields line []) 1
            gpu := fieldVal (splitFields line []) 2
            diskPct := fieldVal (splitFields line []) 3
            diskMBps := fieldVal (splitFields line []) 4
            cpuTempF := fieldVal (splitFields line []) 5
            gpuTempF := fieldVal (splitFields line []) 6
            freeC := fieldVal (splitFields line []) 7
            freeD := fieldVal (splitFields line []) 8
            indoorTempF :=
              if 10 ≤ (splitFields line []).length then fieldVal (splitFields line []) 9
              else fieldVal (splitFields line []) 5
            lastUpdateMs := now })) ∧
    parseCSVLine "45,60,30,50,12.5,70,80,100,200,68".toList initStats 5 =
      (true,
        { cpu := 45, mem := 60, gpu := 30, diskPct := 50, diskMBps := 12.5,
          cpuTempF := 70, gpuTempF := 80, freeC := 100, freeD := 200,
          indoorTempF := 68, lastUpdateMs := 5 }) := by
  constructor
  · intro line cur now h
    simp only [parseCSVLine]
    rw [if_neg (by omega)]
  · simp +decide [parseCSVLine, splitFields, fieldVal, toFloat, toFloatMag, intDigits,
      fracDigits, digitVal, List.dropWhile]
    norm_num

/-- Witness for C1 at the concrete record `1,2,3,4,5,6,7,8,9`. -/
theorem parseCSVLine_valid_updates_witness :
    parseCSVLine "1,2,3,4,5,6,7,8,9".toList initStats 7 =
      (true,
        { cpu := fieldVal (splitFields "1,2,3,4,5,6,7,8,9".toList []) 0
          mem := fieldVal (splitFields "1,2,3,4,5,6,7,8,9".toList []) 1
          gpu := fieldVal (splitFields "1,2,3,4,5,6,7,8,9".toList []) 2
          diskPct := fieldVal (splitFields "1,2,3,4,5,6,7,8,9".toList []) 3
          diskMBps := fieldVal (splitFields "1,2,3,4,5,6,7,8,9".toList []) 4
          cpuTempF := fieldVal (splitFields "1,2,3,4,5,6,7,8,9".toList []) 5
          gpuTempF := fieldVal (splitFields "1,2,3,4,5,6,7,8,9".toList []) 6
          freeC := fieldVal (splitFields "1,2,3,4,5,6,7,8,9".toList []) 7
          freeD := fieldVal (splitFields "1,2,3,4,5,6,7,8,9".toList []) 8
          indoorTempF :=
            if 10 ≤ (splitFields "1,2,3,4,5,6,7,8,9".toList []).length then
              fieldVal (splitFields "1,2,3,4,5,6,7,8,9".toList []) 9
            else fieldVal (splitFields "1,2,3,4,5,6,7,8,9".toList []) 5
          lastUpdateMs := 7 }) :=
  parseCSVLine_valid_updates.1 "1,2,3,4,5,6,7,8,9".toList initStats 7 (by decide)

/-- C2: a record that splits into fewer than 9 fields is rejected:
`parseCSVLine` returns `false` and the whole `Stats` snapshot, timestamp
included, is returned exactly as it was. -/
theorem parseCSVLine_short_unchanged :
    ∀ line cur now, (splitFields line []).length < 9 →
      parseCSVLine line cur now = (false, cur) := by
  intro line cur now h
  simp only [parseCSVLine]
  rw [if_pos h]

/-- Witness for C2 at the concrete record `10,20,30`. -/
theorem parseCSVLine_short_unchanged_witness :
    parseCSVLine "10,20,30".toList initStats 5 = (false, initStats) :=
  parseCSVLine_short_unchanged "10,20,30".toList initStats 5 (by decide)

/-- C10: when a 10th field is present but numerically unparseable (such as the
empty field left by a trailing comma), `parseCSVLine` still succeeds and
`indoorTempF` receives that field's garbage-parses-to-zero value `0`, not the
cpu-temperature field's value: concretely, `45,60,30,50,12.5,70,80,100,200,`
gives `indoorTempF = 0` while `cpuTempF = 70`. -/
theorem parseCSVLine_tenth_garbage_zero :
    (∀ line cur now, 10 ≤ (splitFields line []).length →
        toFloat ((splitFields line []).getD 9 []) = 0 →
        (parseCSVLine line cur now).1 = true ∧
        (parseCSVLine line cur now).2.indoorTempF = 0) ∧
    toFloat [] = 0 ∧
    toFloat "abc".toList = 0 ∧
    (parseCSVLine "45,60,30,50,12.5,70,80,100,200,".toList initStats 5).1 = true ∧
    (parseCSVLine "45,60,30,50,12.5,70,80,100,200,".toList initStats 5).2.indoorTempF = 0 ∧
    (parseCSVLine "45,60,30,50,12.5,70,80,100,200,".toList initStats 5).2.cpuTempF = 70 := by
  refine ⟨?_, by decide, ?_, ?_⟩
  · intro line cur now h h0
    simp only [parseCSVLine]
    rw [if_neg (by omega)]
    refine ⟨rfl, ?_⟩
    simp only [if_pos h]
    rw [show fieldVal (splitFields line []) 9 = toFloat ((splitFields line []).getD 9 []) from
      if_pos (by omega)]
    exact h0
  · simp +decide [toFloat, toFloatMag, intDigits, fracDigits, digitVal, List.dropWhile]
  · refine ⟨?_, ?_, ?_⟩
    all_goals simp +decide [parseCSVLine, splitFields, fieldVal, toFloat, toFloatMag,
      intDigits, fracDigits, digitVal, List.dropWhile]
    all_goals norm_num

/-- Witness for C10 at the concrete record `1,2,3,4,5,6,7,8,9,x`. -/
theorem parseCSVLine_tenth_garbage_zero_witness :
    (parseCSVLine "1,2,3,4,5,6,7,8,9,x".toList initStats 3).1 = true ∧
    (parseCSVLine "1,2,3,4,5,6,7,8,9,x".toList initStats 3).2.indoorTempF = 0 :=
  parseCSVLine_tenth_garbage_zero.1 "1,2,3,4,5,6,7,8,9,x".toList initStats 3
    (by decide) (by decide)

/-! ### Sample history claims -/

/-- C3: each `recordStats` call writes at the shared cursor and advances it
modulo 60, preserving the 60-entry size of every metric buffer (which starts
zero-filled); reading a buffer as `hist[(cursor + i) % 60]` for `i = 0..59`
yields oldest-to-newest order: from the initial state, 60 records with values
1..60 read back as `[1, ..., 60]`, and a 61st record with value 61 reads back
as `[2, ..., 60, 61]`, the oldest sample dropped. -/
theorem sampleHistory_ring_buffer :
    (∀ h s, (recordStats h s).histIdx = (h.histIdx + 1) % 60 ∧
            (recordStats h s).histCPU.length = h.histCPU.length ∧
            (recordStats h s).histGPU.length = h.histGPU.length ∧
            (recordStats h s).histDISK.length = h.histDISK.length) ∧
    (initHist.histCPU.length = 60 ∧ initHist.histGPU.length = 60 ∧
     initHist.histDISK.length = 60) ∧
    (histSequence (recordAll initHist (oneToSixty.map statWith)).histCPU
        (recordAll initHist (oneToSixty.map statWith)).histIdx = oneToSixty ∧
     histSequence (recordAll initHist (oneToSixty.map statWith)).histGPU
        (recordAll initHist (oneToSixty.map statWith)).histIdx = oneToSixty ∧
     histSequence (recordAll initHist (oneToSixty.map statWith)).histDISK
        (recordAll initHist (oneToSixty.map statWith)).histIdx = oneToSixty) ∧
    (histSequence (recordAll initHist ((oneToSixty ++ [61]).map statWith)).histCPU
        (recordAll initHist ((oneToSixty ++ [61]).map statWith)).histIdx = twoToSixtyOne ∧
     histSequence (recordAll initHist ((oneToSixty ++ [61]).map statWith)).histGPU
        (recordAll initHist ((oneToSixty ++ [61]).map statWith)).histIdx = twoToSixtyOne ∧
     histSequence (recordAll initHist ((oneToSixty ++ [61]).map statWith)).histDISK
        (recordAll initHist ((oneToSixty ++ [61]).map statWith)).histIdx = twoToSixtyOne) := by
  refine ⟨?_, by decide, by decide, by decide⟩
  intro h s
  simp [recordStats, HIST_N]

/-! ### Mode cycle claim -/

/-- C5: the display-mode transitions are a 4-cycle CPU → GPU → DISK → WEATHER
with wraparound in both directions: `nextMode` steps forward, `prevMode` steps
backward and undoes `nextMode`, four `nextMode` steps from CPU return to CPU,
and `prevMode` from CPU lands on WEATHER instead of underflowing. -/
theorem modeCycle_wraps :
    (nextMode .CPU = .GPU ∧ nextMode .GPU = .DISK ∧ nextMode .DISK = .WEATHER ∧
     nextMode .WEATHER = .CPU) ∧
    (prevMode .CPU = .WEATHER ∧ prevMode .GPU = .CPU ∧ prevMode .DISK = .GPU ∧
     prevMode .WEATHER = .DISK) ∧
    nextMode (nextMode (nextMode (nextMode .CPU))) = .CPU ∧
    (∀ m, prevMode (nextMode m) = m ∧ nextMode (prevMode m) = m) := by
  refine ⟨by decide, by decide, by decide, ?_⟩
  intro m
  cases m <;> exact ⟨rfl, rfl⟩

/-! ### Line accumulator claim -/

theorem takeLast_all {n : Nat} {l : List Char} (h : l.length ≤ n) : takeLast n l = l := by
  simp [takeLast, Nat.sub_eq_zero_of_le h]

theorem takeLast_len_le (n : Nat) (l : List Char) : (takeLast n l).length ≤ n := by
  simp [takeLast]
  omega

theorem takeLast_append_right (u w : List Char) {n : Nat} (h : n ≤ w.length) :
    takeLast n (u ++ w) = takeLast n w := by
  simp only [takeLast, List.length_append]
  rw [show u.length + w.length - n = u.length + (w.length - n) by omega]
  rw [List.drop_append]

theorem takeLast_idem_append (n : Nat) (l y : List Char) :
    takeLast n (takeLast n l ++ y) = takeLast n (l ++ y) := by
  by_cases h : l.length ≤ n
  · rw [takeLast_all h]
  · have hlen : (takeLast n l).length = n := by
      simp [takeLast]
      omega
    conv_rhs => rw [← List.take_append_drop (l.length - n) l]
    rw [List.append_assoc]
    refine (takeLast_append_right _ _ ?_).symm
    rw [List.length_append, hlen]
    omega

theorem accumByte_plain {c : Char} (buf : List Char) (hn : c ≠ '\n') (hr : c ≠ '\r') :
    accumByte buf c = (takeLast 200 (buf ++ [c]), none) := by
  simp only [accumByte, if_neg hn, if_neg hr]
  by_cases h : 200 < (buf ++ [c]).length
  · rw [if_pos h]
    rfl
  · rw [if_neg h, takeLast_all (by omega)]

theorem accumFeed_plain (bs : List Char) :
    ∀ buf, buf.length ≤ 200 → (∀ c ∈ bs, c ≠ '\n' ∧ c ≠ '\r') →
      accumFeed buf bs = (takeLast 200 (buf ++ bs), []) := by
  induction bs with
  | nil =>
    intro buf hlen _
    simp [accumFeed, takeLast_all (by simpa using hlen)]
  | cons c cs ih =>
    intro buf hlen hplain
    have hc := hplain c (by simp)
    rw [accumFeed, accumByte_plain buf hc.1 hc.2]
    rw [ih _ (takeLast_len_le 200 _) (fun d hd => hplain d (by simp [hd]))]
    rw [takeLast_idem_append]
    simp

theorem accumFeed_append (xs ys : List Char) :
    ∀ buf, accumFeed buf (xs ++ ys) =
      ((accumFeed (accumFeed buf xs).1 ys).1,
       (accumFeed buf xs).2 ++ (accumFeed (accumFeed buf xs).1 ys).2) := by
  induction xs with
  | nil => intro buf; simp [accumFeed]
  | cons c cs ih =>
    intro buf
    rw [List.cons_append, accumFeed, accumFeed, ih]
    simp

/-- C4: the accumulator ignores `\r`, hands the buffer to the parser and clears
it on `\n`, and otherwise appends and keeps only the most recent 200-character
suffix, so the buffer never grows past 200 characters; in particular feeding
250 plain data bytes and then `\n` delivers exactly one record: the last 200
bytes sent (the first 50 are discarded). -/
theorem lineAccumulator_caps_buffer :
    (∀ buf, accumByte buf '\r' = (buf, none)) ∧
    (∀ buf, accumByte buf '\n' = ([], some buf)) ∧
    (∀ buf c, buf.length ≤ 200 → (accumByte buf c).1.length ≤ 200) ∧
    (∀ buf c, c ≠ '\n' → c ≠ '\r' → (accumByte buf c).1 = takeLast 200 (buf ++ [c])) ∧
    (∀ bs, bs.length = 250 → (∀ c ∈ bs, c ≠ '\n' ∧ c ≠ '\r') →
        (accumFeed [] (bs ++ ['\n'])).2 = [bs.drop 50] ∧ (bs.drop 50).length = 200) := by
  refine ⟨fun buf => by simp [accumByte], fun buf => by simp [accumByte], ?_, ?_, ?_⟩
  · intro buf c hlen
    by_cases hn : c = '\n'
    · simp [accumByte, hn]
    by_cases hr : c = '\r'
    · simpa [accumByte, hn, hr] using hlen
    · rw [accumByte_plain buf hn hr]
      exact takeLast_len_le 200 _
  · intro buf c hn hr
    rw [accumByte_plain buf hn hr]
  · intro bs h250 hplain
    have hfeed := accumFeed_plain bs [] (by simp) hplain
    rw [List.nil_append] at hfeed
    have hbs : takeLast 200 bs = bs.drop 50 := by
      simp [takeLast, h250]
    rw [accumFeed_append, hfeed]
    refine ⟨?_, by simp [h250]⟩
    simp [hbs, accumFeed, accumByte]

/-- Witness for C4: 250 copies of `a` followed by a newline. -/
theorem lineAccumulator_caps_buffer_witness :
    (accumFeed [] (List.replicate 250 'a' ++ ['\n'])).2 =
      [(List.replicate 250 'a').drop 50] ∧
    ((List.replicate 250 'a').drop 50).length = 200 :=
  lineAccumulator_caps_buffer.2.2.2.2 (List.replicate 250 'a') (by simp)
    (by simp [List.mem_replicate])

/-! ### Animation claims -/

theorem easing_factor_nonneg (dt : ℝ) : 0 ≤ 1 - Real.exp (-(7 * min (max dt 0) (1 / 20))) := by
  have h0 : 0 ≤ min (max dt 0) (1 / 20) := le_min (le_max_right dt 0) (by norm_num)
  have : Real.exp (-(7 * min (max dt 0) (1 / 20))) ≤ Real.exp 0 :=
    Real.exp_le_exp.mpr (by nlinarith)
  rw [Real.exp_zero] at this
  linarith

theorem easing_factor_le_one (dt : ℝ) : 1 - Real.exp (-(7 * min (max dt 0) (1 / 20))) < 1 := by
  have := Real.exp_pos (-(7 * min (max dt 0) (1 / 20)))
  linarith

theorem animateBar_between (st : BarState) (dt : ℝ) :
    (st.value ≤ st.target →
      st.value ≤ (animateBar st dt).value ∧ (animateBar st dt).value ≤ st.target) ∧
    (st.target ≤ st.value →
      st.target ≤ (animateBar st dt).value ∧ (animateBar st dt).value ≤ st.value) := by
  have hf0 := easing_factor_nonneg dt
  have hf1 := easing_factor_le_one dt
  simp only [animateBar]
  constructor
  · intro h
    constructor <;> nlinarith
  · intro h
    constructor <;> nlinarith

theorem animateBar_target (st : BarState) (dt : ℝ) : (animateBar st dt).target = st.target := rfl

theorem setBarTarget_clamped (st : BarState) (v : ℝ) :
    0 ≤ (setBarTarget st v).target ∧ (setBarTarget st v).target ≤ 100 ∧
    (setBarTarget st v).value = st.value := by
  refine ⟨?_, ?_, rfl⟩ <;>
    · simp only [setBarTarget]
      split_ifs <;> linarith

theorem runBarOps_bounded (ops : List BarOp) :
    ∀ st, 0 ≤ st.value → st.value ≤ 100 → 0 ≤ st.target → st.target ≤ 100 →
      0 ≤ (runBarOps st ops).value ∧ (runBarOps st ops).value ≤ 100 ∧
      0 ≤ (runBarOps st ops).target ∧ (runBarOps st ops).target ≤ 100 := by
  induction ops with
  | nil => intro st h1 h2 h3 h4; exact ⟨h1, h2, h3, h4⟩
  | cons op rest ih =>
    intro st h1 h2 h3 h4
    cases op with
    | setT v =>
      have hc := setBarTarget_clamped st v
      exact ih (setBarTarget st v) (by rw [hc.2.2]; exact h1) (by rw [hc.2.2]; exact h2)
        hc.1 hc.2.1
    | adv dt =>
      have hb := animateBar_between st dt
      have ht := animateBar_target st dt
      have hv : 0 ≤ (animateBar st dt).value ∧ (animateBar st dt).value ≤ 100 := by
        rcases le_total st.value st.target with h | h
        · rcases hb.1 h with ⟨ha, hc⟩
          exact ⟨le_trans h1 ha, le_trans hc h4⟩
        · rcases hb.2 h with ⟨ha, hc⟩
          exact ⟨le_trans h3 ha, le_trans hc h2⟩
      exact ih (animateBar st dt) hv.1 hv.2 (by rw [ht]; exact h3) (by rw [ht]; exact h4)

/-- C6: the bar animation never overshoots and stays in range: a target update
clamps the stored target into `[0, 100]` while leaving the displayed value
alone, each `animateBar` tick keeps the displayed value between its old value
and the current target (the step factor `1 - exp (-7 dt)` is below 1), and any
sequence of target updates and ticks started with displayed value and target in
`[0, 100]` keeps the displayed value in `[0, 100]`. -/
theorem animation_never_overshoots :
    (∀ st v, 0 ≤ (setBarTarget st v).target ∧ (setBarTarget st v).target ≤ 100 ∧
        (setBarTarget st v).value = st.value) ∧
    (∀ st dt, (st.value ≤ st.target →
        st.value ≤ (animateBar st dt).value ∧ (animateBar st dt).value ≤ st.target) ∧
      (st.target ≤ st.value →
        st.target ≤ (animateBar st dt).value ∧ (animateBar st dt).value ≤ st.value)) ∧
    (∀ ops st, 0 ≤ st.value → st.value ≤ 100 → 0 ≤ st.target → st.target ≤ 100 →
        0 ≤ (runBarOps st ops).value ∧ (runBarOps st ops).value ≤ 100) :=
  ⟨setBarTarget_clamped, animateBar_between,
   fun ops st h1 h2 h3 h4 =>
     ⟨(runBarOps_bounded ops st h1 h2 h3 h4).1, (runBarOps_bounded ops st h1 h2 h3 h4).2.1⟩⟩

/-- Witness for C6: an out-of-range target request followed by a tick, from a
concrete in-range state. -/
theorem animation_never_overshoots_witness :
    0 ≤ (runBarOps ⟨50, 0⟩ [BarOp.setT 150, BarOp.adv 1]).value ∧
    (runBarOps ⟨50, 0⟩ [BarOp.setT 150, BarOp.adv 1]).value ≤ 100 :=
  animation_never_overshoots.2.2 [BarOp.setT 150, BarOp.adv 1] ⟨50, 0⟩
    (by norm_num) (by norm_num) (by norm_num) (by norm_num)

theorem runAdvances_formula (ds : List ℝ) :
    ∀ st, (∀ d ∈ ds, 0 ≤ d ∧ d ≤ 1 / 20) →
      (runAdvances st ds).value =
        st.target + (st.value - st.target) * Real.exp (-(7 * ds.sum)) ∧
      (runAdvances st ds).target = st.target := by
  induction ds with
  | nil =>
    intro st _
    refine ⟨?_, rfl⟩
    simp [runAdvances, Real.exp_zero]
  | cons dt rest ih =>
    intro st h
    have hdt := h dt (by simp)
    have hrec := ih (animateBar st dt) (fun d hd => h d (by simp [hd]))
    have hclamp : min (max dt 0) (1 / 20) = dt := by
      rw [max_eq_left hdt.1, min_eq_left hdt.2]
    have hval : (animateBar st dt).value =
        st.value + (st.target - st.value) * (1 - Real.exp (-(7 * dt))) := by
      simp only [animateBar]
      rw [hclamp]
    rw [runAdvances]
    refine ⟨?_, by rw [hrec.2, animateBar_target]⟩
    rw [hrec.1, hval, animateBar_target]
    have hexp : Real.exp (-(7 * (dt :: rest).sum)) =
        Real.exp (-(7 * dt)) * Real.exp (-(7 * rest.sum)) := by
      rw [← Real.exp_add]
      congr 1
      rw [List.sum_cons]
      ring
    rw [hexp]
    ring

/-- C7: with every per-call delta within the 50 ms clamp, the exponential
easing is independent of how elapsed time is partitioned: a run of
`animateBar` ticks lands at `target + (value0 - target) * exp (-7 t)` where `t`
is the total elapsed time, two consecutive ticks equal one combined tick, and
30 ticks of 1/30 s from displayed 0 toward target 100 end within 1.0 of 100. -/
theorem easing_rate_independent :
    (∀ ds st, (∀ d ∈ ds, 0 ≤ d ∧ d ≤ 1 / 20) →
        (runAdvances st ds).value =
          st.target + (st.value - st.target) * Real.exp (-(7 * ds.sum))) ∧
    (∀ st t1 t2, 0 ≤ t1 → 0 ≤ t2 → t1 + t2 ≤ 1 / 20 →
        animateBar (animateBar st t1) t2 = animateBar st (t1 + t2)) ∧
    (100 - (runAdvances ⟨0, 100⟩ (List.replicate 30 ((1 : ℝ) / 30))).value < 1 ∧
     (runAdvances ⟨0, 100⟩ (List.replicate 30 ((1 : ℝ) / 30))).value ≤ 100) := by
  refine ⟨fun ds st h => (runAdvances_formula ds st h).1, ?_, ?_⟩
  · intro st t1 t2 h1 h2 h12
    have e1 : min (max t1 0) (1 / 20) = t1 := by
      rw [max_eq_left h1, min_eq_left (by linarith)]
    have e2 : min (max t2 0) (1 / 20) = t2 := by
      rw [max_eq_left h2, min_eq_left (by linarith)]
    have e12 : min (max (t1 + t2) 0) (1 / 20) = t1 + t2 := by
      rw [max_eq_left (by linarith), min_eq_left h12]
    have hab : Real.exp (-(7 * (t1 + t2))) = Real.exp (-(7 * t1)) * Real.exp (-(7 * t2)) := by
      rw [← Real.exp_add]
      congr 1
      ring
    ext
    · simp only [animateBar, e1, e2, e12]
      rw [hab]
      ring
    · rfl
  · have hmem : ∀ d ∈ List.replicate 30 ((1 : ℝ) / 30), 0 ≤ d ∧ d ≤ 1 / 20 := by
      intro d hd
      rw [List.eq_of_mem_replicate hd]
      norm_num
    have hform := (runAdvances_formula (List.replicate 30 ((1 : ℝ) / 30)) ⟨0, 100⟩ hmem).1
    have hsum : (List.replicate 30 ((1 : ℝ) / 30)).sum = 1 := by
      rw [List.sum_replicate, nsmul_eq_mul]
      norm_num
    rw [hsum] at hform
    have hform2 : (runAdvances ⟨0, 100⟩ (List.replicate 30 ((1 : ℝ) / 30))).value =
        100 - 100 * Real.exp (-7) := by
      rw [hform]
      norm_num
      ring
    have h7 : (100 : ℝ) < Real.exp 7 := by
      have h2 : (2 : ℝ) < Real.exp 1 := by
        have := Real.exp_one_gt_d9
        linarith
      have hpow : ((2 : ℝ)) ^ (7 : ℕ) < (Real.exp 1) ^ (7 : ℕ) :=
        pow_lt_pow_left₀ h2 (by norm_num) (by norm_num)
      have hexp7 : (Real.exp 1) ^ (7 : ℕ) = Real.exp 7 := by
        rw [← Real.exp_nat_mul]
        norm_num
      calc (100 : ℝ) < 2 ^ (7 : ℕ) := by norm_num
        _ < (Real.exp 1) ^ (7 : ℕ) := hpow
        _ = Real.exp 7 := hexp7
    have hinv : Real.exp (-7) = (Real.exp 7)⁻¹ := Real.exp_neg 7
    have hpos := Real.exp_pos (7 : ℝ)
    have hcancel : Real.exp 7 * (Real.exp 7)⁻¹ = 1 := mul_inv_cancel₀ (ne_of_gt hpos)
    have hinvpos : 0 < (Real.exp 7)⁻¹ := inv_pos.mpr hpos
    constructor
    · rw [hform2, hinv]
      nlinarith
    · rw [hform2, hinv]
      nlinarith

/-- Witness for C7: two 10 ms ticks against one 20 ms tick. -/
theorem easing_rate_independent_witness :
    animateBar (animateBar ⟨0, 100⟩ (1 / 100)) (1 / 100) =
      animateBar ⟨0, 100⟩ (1 / 100 + 1 / 100) :=
  easing_rate_independent.2.1 ⟨0, 100⟩ (1 / 100) (1 / 100)
    (by norm_num) (by norm_num) (by norm_num)

/-! ### Frame scheduler claim -/

theorem runFrames_spaced (times : List Nat) :
    ∀ nf, (∀ r ∈ (runFrames nf times).2, nf ≤ r) ∧
      List.Chain' (fun a b => a + 33 ≤ b) (runFrames nf times).2 := by
  induction times with
  | nil =>
    intro nf
    simp [runFrames]
  | cons now rest ih =>
    intro nf
    rw [runFrames]
    simp only [frameTick]
    by_cases h : nf ≤ now
    · rw [if_pos h]
      simp only [if_true]
      have hr := ih (now + 33)
      constructor
      · intro r hrmem
        rcases List.mem_cons.mp hrmem with rfl | hmem
        · exact h
        · have := hr.1 r hmem
          omega
      · rw [List.chain'_cons']
        refine ⟨?_, hr.2⟩
        intro y hy
        exact hr.1 y (List.mem_of_mem_head? hy)
    · rw [if_neg h]
      simp only [if_false]
      exact ih nf

/-- C8: the ~30 FPS pacing in `loop()` is a no-op while `now` is before the
`nextFrame` deadline (state unchanged, no render); once reached, it fires the
advance+render and moves the deadline to `now + 33`; consequently, over any
run, consecutive fired frames are at least 33 ms apart. -/
theorem frameScheduler_paces :
    (∀ nf now, now < nf → frameTick nf now = (nf, false)) ∧
    (∀ nf now, nf ≤ now → frameTick nf now = (now + 33, true)) ∧
    (∀ nf times, List.Chain' (fun a b => a + 33 ≤ b) (runFrames nf times).2) := by
  refine ⟨?_, ?_, fun nf times => (runFrames_spaced times nf).2⟩
  · intro nf now h
    simp only [frameTick]
    rw [if_neg (by omega)]
  · intro nf now h
    simp only [frameTick]
    rw [if_pos h]

/-- Witness for C8: one skipped and one fired tick at concrete times. -/
theorem frameScheduler_paces_witness :
    frameTick 100 50 = (100, false) ∧ frameTick 100 200 = (233, true) :=
  ⟨frameScheduler_paces.1 100 50 (by decide), frameScheduler_paces.2.1 100 200 (by decide)⟩

/-! ### Touch long-press claim -/

/-- The touch-tracking state at program start: no gesture armed, CPU mode. -/
def initTouch : TouchState :=
  { touchStartTime := 0, touchStartX := -1, touchActive := false,
    longPressTriggered := false, mode := Mode.CPU, setupEntered := false }

theorem handleTouch_press_mode (st : TouchState) (now : Nat) (x : Int) :
    (handleTouch st (.press now x)).mode = st.mode := by
  simp only [handleTouch]
  split_ifs <;> rfl

theorem runTouch_presses_mode (ps : List (Nat × Int)) :
    ∀ st0, (runTouch st0 (ps.map (fun p => TouchEvent.press p.1 p.2))).mode = st0.mode := by
  induction ps with
  | nil => intro st0; rfl
  | cons p rest ih =>
    intro st0
    simp only [List.map_cons, runTouch, List.foldl_cons]
    rw [show (rest.map (fun p => TouchEvent.press p.1 p.2)).foldl handleTouch
          (handleTouch st0 (.press p.1 p.2)) =
        runTouch (handleTouch st0 (.press p.1 p.2))
          (rest.map (fun p => TouchEvent.press p.1 p.2)) from rfl]
    rw [ih]
    exact handleTouch_press_mode st0 p.1 p.2

theorem handleTouch_release_after_longpress (st : TouchState) (x : Int)
    (h : st.longPressTriggered = true) :
    (handleTouch st (.release x)).mode = st.mode := by
  simp only [handleTouch, h]
  simp

/-- C9: a touch held longer than the 3000 ms threshold fires the long press,
which enters setup mode instead of changing the display mode, and suppresses
the swipe evaluation of that gesture's release: whenever the long press has
fired, the release leaves the mode exactly as it was before the gesture,
whatever horizontal distance was covered. -/
theorem longPress_suppresses_swipe :
    (∀ st now x, st.touchStartTime ≠ 0 → st.longPressTriggered = false →
        LONG_PRESS_MS < now - st.touchStartTime →
        (handleTouch st (.press now x)).setupEntered = true ∧
        (handleTouch st (.press now x)).longPressTriggered = true ∧
        (handleTouch st (.press now x)).mode = st.mode) ∧
    (∀ st x, st.longPressTriggered = true →
        (handleTouch st (.release x)).mode = st.mode) ∧
    (∀ (ps : List (Nat × Int)) x st0,
        (runTouch st0 (ps.map (fun p => TouchEvent.press p.1 p.2))).longPressTriggered = true →
        (handleTouch (runTouch st0 (ps.map (fun p => TouchEvent.press p.1 p.2)))
            (.release x)).mode = st0.mode) := by
  refine ⟨?_, handleTouch_release_after_longpress, ?_⟩
  · intro st now x h0 hlp hheld
    simp only [handleTouch, if_neg h0]
    rw [if_pos ⟨hlp, hheld⟩]
    exact ⟨rfl, rfl, rfl⟩
  · intro ps x st0 htrig
    rw [handleTouch_release_after_longpress _ x htrig]
    exact runTouch_presses_mode ps st0

/-- Witness for C9: a press armed at t = 1 and held until t = 5000 fires the
long press; the release then leaves the mode at CPU whatever the swipe was. -/
theorem longPress_suppresses_swipe_witness :
    (handleTouch (runTouch initTouch
        ([((1 : Nat), (10 : Int)), (5000, 200)].map (fun p => TouchEvent.press p.1 p.2)))
      (.release 300)).mode = initTouch.mode :=
  longPress_suppresses_swipe.2.2 [((1 : Nat), (10 : Int)), (5000, 200)] 300 initTouch (by decide)
